import Mathlib

/-!
Verification of the go-ezipc IPC fabric core (package blab / ezipc).

Shallow embedding of:
  * tag allocation (`getBucket`, src/request.go),
  * the caller request construction and reply dispatch (`Call`, src/request.go),
  * the switchboard / routing engine (`switchboard`, `route`, `send_err`,
    `setBusy`, `add_route`, `connection.close`, src/unnamed/part_000),
  * the frame codec (`connection.send` encoder, `decMessage`, `findSplit`,
    src/blab.go and src/unnamed/part_000),
  * the broker fall-through and stale socket-file cleanup (`Listen`,
    src/blab.go).

Go maps are embedded as functions to `Option`, Go strings as `String` /
`List Char`, `int32` as `ℤ` with explicit range side conditions, and the
unbounded allocation loop as a fuel-indexed loop with enough fuel to visit
the whole 31-bit tag space once.
-/

namespace EzIPC

/-- The unit-separator byte 0x1F used between wire fields. -/
def usChar : Char := Char.ofNat 31

/-- The end-of-transmission byte 0x04 terminating each frame. -/
def eotChar : Char := Char.ofNat 4

/-- Distinguished error values of the package (src/request.go lines 28-30). -/
inductive GoErr where
  | errFail
  | errBadTag
  | errClosed
deriving DecidableEq, Repr

/-- The wire strings of the distinguished errors. -/
def errString : GoErr → String
  | .errFail => "Request failed, service unavailable."
  | .errBadTag => "Duplicate tag detected."
  | .errClosed => "Connection closed."

/-- Message packet (src/blab.go lines 47-55).  The `conn` field is the
in-memory origin connection pointer, embedded as an optional connection id. -/
structure Msg where
  Dst : String
  Src : String
  Tag : ℤ
  Err : String
  Va1 : String
  Va2 : String
  conn : Option ℕ
deriving DecidableEq, Repr

/-! ## Tag allocation (src/request.go, getBucket, lines 142-176) -/

/-- One probe step of getBucket's collision loop:
`if tag < int32(1<<31-1) { tag++ } else { tag = 0 }`. -/
def probeStep (tag : ℤ) : ℤ :=
  if tag < 2 ^ 31 - 1 then tag + 1 else 0

/-- The collision loop of getBucket, fuel-indexed.  The Go loop is unbounded;
`2^31` fuel is enough to probe the entire 31-bit tag space once. -/
def getBucketLoop (tagMap : Finset ℤ) : ℕ → ℤ → Option ℤ
  | 0, _ => none
  | fuel + 1, tag =>
      if tag ∈ tagMap then getBucketLoop tagMap fuel (probeStep tag)
      else some tag

/-- getBucket: starting from the random draw `t0` of `genTag()` (uniform in
`[0, 2^31-2]`), linearly probe until a tag not in the map is found. -/
def getBucket (tagMap : Finset ℤ) (t0 : ℤ) : Option ℤ :=
  getBucketLoop tagMap (2 ^ 31) t0

/-! ## Router state and switchboard (src/unnamed/part_000) -/

/-- An entry of `tagMap`.  Positive keys hold pending call buckets
(src/request.go, getBucket); negative keys hold the producer-side busy
markers installed by `setBusy` (src/unnamed/part_000 lines 164-173). -/
inductive TagEntry where
  | pending
  | busy
deriving DecidableEq, Repr

/-- Node-wide router state: the tag map, the route (connection) map, the
per-connection announced-routes lists and names, the ready flag, the uplink
and the per-connection local-handler pointers (`connection.exec`).
Connections are identified by natural-number ids. -/
structure SB where
  myAddr : String
  uplink : Option ℕ
  tagMap : ℤ → Option TagEntry
  connMap : String → Option ℕ
  routesOf : ℕ → List String
  nameOf : ℕ → String
  ready : Bool
  execOf : ℕ → Option (Msg → Msg)

/-- Observable effects of one routing step. -/
inductive Action where
  | send (c : ℕ) (m : Msg)
  | spawn (c : ℕ) (m : Msg)
  | deliver (m : Msg)
  | logDrop (m : Msg)
  | panicNil
deriving DecidableEq, Repr

/-- add_route (src/unnamed/part_000 lines 195-204): set the connection name
if empty, raise the ready flag, overwrite the route table entry and append
the name to the connection's routes list. -/
def sbAddRoute (s : SB) (addr : String) (c : ℕ) : SB :=
  { s with
    nameOf := fun i =>
      if i = c then (if s.nameOf c = "" then addr else s.nameOf c) else s.nameOf i
    ready := true
    connMap := fun a => if a = addr then some c else s.connMap a
    routesOf := fun i => if i = c then s.routesOf c ++ [addr] else s.routesOf i }

/-- connection.close (src/unnamed/part_000 lines 76-85): delete from the
route table every name this connection announced, then close the socket.
The connection's own routes list is not cleared. -/
def connClose (s : SB) (c : ℕ) : SB :=
  { s with connMap := fun a => if a ∈ s.routesOf c then none else s.connMap a }

/-- find_route (src/unnamed/part_000 lines 207-211). -/
def findRoute (s : SB) (addr : String) : Option ℕ :=
  s.connMap addr

/-- send_err (src/unnamed/part_000 lines 106-122): swap Dst and Src, blank
both payload fields, set Err, point the message's conn field at the route
for the new destination (falling back to the uplink), but transmit only when
the route lookup succeeded; always log. -/
def sendErrFn (s : SB) (req : Msg) (e : GoErr) : Msg × List Action :=
  let req1 : Msg :=
    { req with Dst := req.Src, Src := req.Dst, Va1 := "", Va2 := "",
               Err := errString e }
  match findRoute s req1.Dst with
  | none =>
      let req2 := { req1 with conn := match s.uplink with
                                      | some u => some u
                                      | none => req1.conn }
      (req2, [Action.logDrop req2])
  | some c =>
      let req2 := { req1 with conn := some c }
      (req2, [Action.send c req2, Action.logDrop req2])

/-- route (src/unnamed/part_000 lines 125-161): resolve the destination
(falling back to the uplink), fill an empty Src with the node address;
a handler connection spawns the execution task for fresh requests, drops
bouncebacks and rejects the rest with ErrFail; a socket connection just
sends.  Returns the possibly updated message, the emitted actions and the
Go error return value. -/
def routeFn (s : SB) (req0 : Msg) : Msg × List Action × Option GoErr :=
  let conn := findRoute s req0.Dst
  let req := if req0.Src = "" then { req0 with Src := s.myAddr } else req0
  match (match conn with | none => s.uplink | some c => some c) with
  | none => (req, [], some .errClosed)
  | some c =>
      match s.execOf c with
      | some _ =>
          if req.Err ≠ "" then (req, [], none)
          else if req.Tag > 0 then (req, [Action.spawn c req], none)
          else (req, [], some .errFail)
      | none => (req, [Action.send c req], none)

/-- The failure reply synthesized by the switchboard's unknown-destination
branch (src/unnamed/part_000 lines 50-57): Dst and Src swapped, a negative
tag flipped positive, Err set to the distinguished failure string.  The
payload fields are untouched. -/
def synthFailReply (req : Msg) : Msg :=
  { req with Dst := req.Src, Src := req.Dst,
             Tag := if req.Tag < 0 then -req.Tag else req.Tag,
             Err := errString .errFail }

/-- switchboard (src/unnamed/part_000 lines 18-64): announcements add a
route and are forwarded to the uplink; probes for busy tags are dropped;
replies addressed to this node are intercepted when a tag entry exists;
routable destinations go through `route` (errors bounced via `send_err`);
otherwise a failure reply is synthesized when Err is empty, and the message
is logged and dropped when Err is already set. -/
def switchboard (s : SB) (req : Msg) : SB × List Action :=
  if req.Tag = 0 then
    match req.conn with
    | some c =>
        let s1 := sbAddRoute s req.Src c
        let acts := match s.uplink with
          | some u => if req.conn ≠ some u then [Action.send u req] else []
          | none => []
        (s1, acts)
    | none => (s, [])
  else if req.Tag < 0 ∧ (s.tagMap req.Tag).isSome then
    (s, [])
  else if req.Dst = s.myAddr ∧ (s.tagMap req.Tag).isSome then
    ({ s with tagMap := fun t => if t = req.Tag then none else s.tagMap t },
     [Action.deliver req])
  else
    match findRoute s req.Dst with
    | some _ =>
        let r := routeFn s req
        match r.2.2 with
        | some ge => (s, r.2.1 ++ (sendErrFn s r.1 ge).2)
        | none => (s, r.2.1)
    | none =>
        if req.Err = "" then
          (s, (routeFn s (synthFailReply req)).2.1)
        else
          (s, [Action.logDrop req])

/-- setBusy (src/unnamed/part_000 lines 164-173): if the negated tag is
already a key of the tag map, bounce a duplicate-tag error through
`send_err` (which mutates the message in place); otherwise install the busy
marker.  Returns the updated state, the (possibly mutated) message and the
emitted actions. -/
def setBusyFn (s : SB) (req : Msg) : SB × Msg × List Action :=
  if (s.tagMap (-req.Tag)).isSome then
    let r := sendErrFn s req .errBadTag
    (s, r.1, r.2)
  else
    ({ s with tagMap := fun t => if t = -req.Tag then some .busy else s.tagMap t },
     req, [])

/-- The handler task spawned by `route` for a local-handler connection
(src/unnamed/part_000 lines 146-153): setBusy, invoke the handler on the
(possibly send_err-mutated) message, send its result to the message's
current conn pointer (a nil pointer dereference if that is nil), then
unsetBusy keyed by the handler result's tag. -/
def execTask (s : SB) (ex : Msg → Msg) (req : Msg) : SB × List Action :=
  let step := setBusyFn s req
  let s1 := step.1
  let req1 := step.2.1
  let acts1 := step.2.2
  let reply := ex req1
  let sendActs := match req1.conn with
    | some c => [Action.send c reply]
    | none => [Action.panicNil]
  let s2 := { s1 with tagMap := fun t => if t = -reply.Tag then none else s1.tagMap t }
  (s2, acts1 ++ sendActs)

/-! ## Caller API (src/request.go, Call) -/

/-- The node address `myAddr` (src/unnamed/part_000 lines 12-15):
`fmt.Sprintf("%d.%s", genTag(), <short program name>)`. -/
def myAddrStr (n : ℤ) (prog : String) : String :=
  toString n ++ "." ++ prog

/-- The request message built by Call before the send step
(src/request.go lines 61-66): only Dst, Va1, Va2 and Tag are set; the
remaining fields keep their zero values. -/
def callRequestMsg (name va1 va2 : String) (tag : ℤ) : Msg :=
  { Dst := name, Src := "", Tag := tag, Err := "", Va1 := va1, Va2 := va2,
    conn := none }

/-- Outcome of Call's reply branch.  The base64/json decoding of `Va2` into
the caller's reply value is external to the core; `success` carries the raw
`Va2` payload delivered to it. -/
inductive CallOutcome where
  | retry
  | success (va2 : String)
  | failure
  | other (e : String)
deriving DecidableEq, Repr

/-- Call's reply dispatch (src/request.go lines 96-108): switch on the
reply's Err; every branch removes the pending tag (`reset_bucket`). -/
def callOnReply (tagMap : Finset ℤ) (tag : ℤ) (data : Msg) :
    Finset ℤ × CallOutcome :=
  if data.Err = errString .errBadTag then (tagMap.erase tag, .retry)
  else if data.Err = errString .errFail then (tagMap.erase tag, .failure)
  else if data.Err ≠ "" then (tagMap.erase tag, .other data.Err)
  else (tagMap.erase tag, .success data.Va2)

/-- The retry path after a duplicate-tag reply (src/request.go lines 97-99
and 46-66): allocate a fresh tag from the already-reset tag map and rebuild
the request message. -/
def callRetry (tagMap : Finset ℤ) (t0 : ℤ) (name va1 va2 : String) :
    Option (Msg × ℤ) :=
  match getBucket tagMap t0 with
  | some t => some (callRequestMsg name va1 va2 t, t)
  | none => none

/-! ## Frame codec (src/unnamed/part_000 connection.send, src/blab.go
decMessage and findSplit) -/

/-- Decimal digits of a natural number, most significant first, with
structural fuel (any fuel above the value itself is enough). -/
def natToDecAux : ℕ → ℕ → List Char
  | 0, _ => []
  | fuel + 1, n =>
      if n < 10 then [Char.ofNat (48 + n)]
      else natToDecAux fuel (n / 10) ++ [Char.ofNat (48 + n % 10)]

/-- Decimal rendering of a natural number. -/
def natToDec (n : ℕ) : List Char := natToDecAux (n + 1) n

/-- Go's `%d` rendering of a signed integer. -/
def intToDec (t : ℤ) : List Char :=
  if t < 0 then '-' :: natToDec (-t).toNat else natToDec t.toNat

/-- The frame written by connection.send (src/unnamed/part_000 lines
96-98): `"%s\x1f%s\x1f%s\x1f%d\x1f%s\x1f%s\x04"` applied to
Dst, Src, Err, Tag, Va1, Va2. -/
def encMessage (m : Msg) : List Char :=
  m.Dst.toList ++ [usChar] ++ m.Src.toList ++ [usChar] ++ m.Err.toList
    ++ [usChar] ++ intToDec m.Tag ++ [usChar] ++ m.Va1.toList ++ [usChar]
    ++ m.Va2.toList ++ [eotChar]

/-- strings.Split on a single-character separator. -/
def splitOn (sep : Char) : List Char → List (List Char)
  | [] => [[]]
  | c :: rest =>
      if c = sep then [] :: splitOn sep rest
      else
        match splitOn sep rest with
        | [] => [[c]]
        | p :: ps => (c :: p) :: ps

/-- findSplit (src/blab.go lines 250-258): index of the first 0x04 byte,
or the length when absent. -/
def findSplit : List Char → ℕ
  | [] => 0
  | c :: rest => if c = eotChar then 0 else findSplit rest + 1

/-- strconv's `lower`: ASCII lowering by setting bit 0x20. -/
def goLower (c : Char) : Char := Char.ofNat (c.toNat ||| 32)

/-- Digit value of a byte in strconv's accumulation loop: decimal digits,
then letters via `lower`; anything else is a syntax error. -/
def digitVal (c : Char) : Option ℕ :=
  if '0' ≤ c ∧ c ≤ '9' then some (c.toNat - 48)
  else if 'a' ≤ goLower c ∧ goLower c ≤ 'z' then some ((goLower c).toNat - 97 + 10)
  else none

/-- strconv.ParseUint's digit loop (with `base0 = true` underscores are
skipped and recorded).  The numeric accumulation is unbounded here; the
32-bit range check of ParseInt below subsumes Go's in-loop cutoff, which
always ends in a range error for the values it rejects. -/
def goDigits (base : ℕ) (base0 : Bool) : ℕ → Bool → List Char → Option (ℕ × Bool)
  | n, u, [] => some (n, u)
  | n, u, c :: rest =>
      if c = '_' ∧ base0 then goDigits base base0 n true rest
      else
        match digitVal c with
        | none => none
        | some d => if d ≥ base then none else goDigits base base0 (n * base + d) u rest

/-- Base selection of strconv.ParseUint with base argument 0: a `0b`/`0o`/
`0x` prefix (requiring at least one further character) selects 2/8/16, a
bare leading `0` selects legacy octal, anything else decimal. -/
def goBaseSelect (s : List Char) : ℕ × List Char :=
  match s with
  | [] => (10, [])
  | [c] => if c = '0' then (8, []) else (10, [c])
  | c :: c2 :: rest =>
      if c = '0' then
        if goLower c2 = 'b' ∧ rest.length ≥ 1 then (2, rest)
        else if goLower c2 = 'o' ∧ rest.length ≥ 1 then (8, rest)
        else if goLower c2 = 'x' ∧ rest.length ≥ 1 then (16, rest)
        else (8, c2 :: rest)
      else (10, c :: c2 :: rest)

/-- strconv's underscoreOK scan state. -/
inductive Saw where
  | caret
  | dig
  | und
  | other
deriving DecidableEq, Repr

/-- The scan loop of strconv's underscoreOK. -/
def underscoreScan (hex : Bool) (saw : Saw) : List Char → Bool
  | [] => saw ≠ Saw.und
  | c :: rest =>
      if ('0' ≤ c ∧ c ≤ '9') ∨ (hex ∧ 'a' ≤ goLower c ∧ goLower c ≤ 'f') then
        underscoreScan hex Saw.dig rest
      else if c = '_' then
        if saw ≠ Saw.dig then false else underscoreScan hex Saw.und rest
      else if saw = Saw.und then false
      else underscoreScan hex Saw.other rest

/-- strconv's underscoreOK: underscores may appear only between digits or
between a base prefix and a digit. -/
def underscoreOK (s0 : List Char) : Bool :=
  let s1 := match s0 with
    | c :: r => if c = '-' ∨ c = '+' then r else s0
    | [] => s0
  let start : Saw × Bool × List Char := match s1 with
    | c :: c2 :: r =>
        if c = '0' ∧ (goLower c2 = 'b' ∨ goLower c2 = 'o' ∨ goLower c2 = 'x') then
          (Saw.dig, goLower c2 = 'x', r)
        else (Saw.caret, false, s1)
    | _ => (Saw.caret, false, s1)
  underscoreScan start.2.1 start.1 start.2.2

/-- strconv.ParseUint(s, 0, 32) up to the final range check (handled by the
caller): empty input fails, then base selection, digit loop, and the
underscore well-formedness check against the original string. -/
def parseUintBase0 (s : List Char) (s0 : List Char) : Option ℕ :=
  match s with
  | [] => none
  | _ =>
      let bs := goBaseSelect s
      match goDigits bs.1 true 0 false bs.2 with
      | none => none
      | some (n, u) => if u ∧ ¬underscoreOK s0 then none else some n

/-- strconv.ParseInt(s, 0, 32): optional sign, ParseUint on the rest, and
the signed 32-bit range check (any error, syntax or range, makes decMessage
fail, so errors collapse to `none`). -/
def parseIntBase0 (s : List Char) : Option ℤ :=
  match s with
  | [] => none
  | c :: rest =>
      let neg := c = '-'
      let s1 := if c = '-' ∨ c = '+' then rest else c :: rest
      match parseUintBase0 s1 (c :: rest) with
      | none => none
      | some un =>
          if ¬neg ∧ un ≥ 2 ^ 31 then none
          else if neg ∧ un > 2 ^ 31 then none
          else some (if neg then -(un : ℤ) else (un : ℤ))

/-- decMessage (src/blab.go lines 105-128): split on 0x1F, fail with a
descriptive error on fewer than six parts, otherwise assign the first six
parts in wire order, parsing the fourth as the tag.  Mirrors Go's named
returns: on a tag parse error the partially filled message is returned
alongside the error. -/
def decMessage (input : List Char) : Option Msg × Option String :=
  let parts := splitOn usChar input
  if parts.length < 6 then
    (none, some ("Incomplete or corrupted message: " ++ input.asString))
  else
    let m0 : Msg :=
      { Dst := (parts.getD 0 []).asString, Src := (parts.getD 1 []).asString,
        Err := (parts.getD 2 []).asString, Tag := 0, Va1 := "", Va2 := "",
        conn := none }
    match parseIntBase0 (parts.getD 3 []) with
    | none =>
        (some m0,
         some ("strconv.ParseInt: parsing " ++ (parts.getD 3 []).asString
               ++ ": invalid syntax"))
    | some t =>
        (some { m0 with Tag := t, Va1 := (parts.getD 4 []).asString,
                        Va2 := (parts.getD 5 []).asString }, none)

/-! ## Listener (src/blab.go, Listen, lines 165-199) -/

/-- strings.Contains. -/
def containsSub (hay needle : List Char) : Bool :=
  hay.tails.any (fun t => needle.isPrefixOf t)

/-- strings.Contains on strings. -/
def goContains (s sub : String) : Bool := containsSub s.toList sub.toList

/-- Listen's early-return test (src/blab.go lines 169-172):
`err == nil || !Contains(err, "connection refused") && !Contains(err, "no
such file or directory")`.  `none` stands for a nil dial error. -/
def listenReturnsEarly (dialErr : Option String) : Bool :=
  match dialErr with
  | none => true
  | some e =>
      !(goContains e "connection refused")
        && !(goContains e "no such file or directory")

/-- strings.Split(s, "/"). -/
def splitSlash (s : String) : List String :=
  (splitOn '/' s.toList).map List.asString

/-- The basename used for stale socket cleanup:
the last `/`-separated component of the socket path. -/
def sfileName (socketf : String) : String :=
  (splitSlash socketf).getLastD ""

/-- The files Listen removes before binding (src/blab.go lines 184-193):
those directory entries whose names contain the basename. -/
def listenRemoved (socketf : String) (dirFiles : List String) : List String :=
  dirFiles.filter (fun f => goContains f (sfileName socketf))

/-- The directory entries Listen leaves untouched. -/
def listenKept (socketf : String) (dirFiles : List String) : List String :=
  dirFiles.filter (fun f => !(goContains f (sfileName socketf)))

/-! ## Route-table operation sequences (for the consistency invariant) -/

/-- A route-table operation: an announcement processed by add_route, or a
connection close. -/
inductive ROp where
  | add (addr : String) (c : ℕ)
  | close (c : ℕ)
deriving DecidableEq, Repr

/-- Apply one route-table operation. -/
def applyROp (s : SB) (op : ROp) : SB :=
  match op with
  | .add addr c => sbAddRoute s addr c
  | .close c => connClose s c

/-- Apply a sequence of route-table operations. -/
def applyROps (s : SB) (l : List ROp) : SB :=
  l.foldl applyROp s

/-- The initial, empty router state. -/
def initSB : SB :=
  { myAddr := "", uplink := none, tagMap := fun _ => none,
    connMap := fun _ => none, routesOf := fun _ => [], nameOf := fun _ => "",
    ready := false, execOf := fun _ => none }

/-! ## Concrete states used by witnesses and counterexamples -/

/-- Concrete router state for the C10 witness: a route for "caller" at
connection 7 and an uplink at connection 3. -/
def sEx10 : SB :=
  { initSB with connMap := fun a => if a = "caller" then some 7 else none,
                uplink := some 3 }

/-- Concrete router state for the C10 witness, without any route. -/
def sEx10b : SB := { initSB with uplink := some 3 }

/-- Concrete message for the C10 witness. -/
def reqEx10 : Msg :=
  { Dst := "X", Src := "caller", Tag := 9, Err := "", Va1 := "p", Va2 := "q",
    conn := some 1 }

/-- Concrete router state for C3: my address "me", no uplink, no tag
entries, and a route back to "caller" at connection 2 (so the synthesized
reply is actually transmitted and its payload is visible on the wire). -/
def sEx3 : SB :=
  { initSB with myAddr := "me",
                connMap := fun a => if a = "caller" then some 2 else none }

/-- Concrete unroutable request for C3. -/
def reqEx3 : Msg :=
  { Dst := "X", Src := "caller", Tag := 7, Err := "", Va1 := "payload",
    Va2 := "seed", conn := some 0 }

/-- The reply the switchboard synthesizes for `reqEx3`. -/
def synthEx3 : Msg :=
  { Dst := "caller", Src := "X", Tag := 7, Err := errString .errFail,
    Va1 := "payload", Va2 := "seed", conn := some 0 }

/-- Concrete router state for C5: tag 9 is already busy (key -9 in the
tag map) and a route back to "caller" exists at connection 1. -/
def sEx5 : SB :=
  { initSB with
      tagMap := fun t => if t = -9 then some .busy else none,
      connMap := fun a => if a = "caller" then some 1 else none }

/-- Concrete duplicate request for C5: tag 9 to local handler "Echo". -/
def reqEx5 : Msg :=
  { Dst := "Echo", Src := "caller", Tag := 9, Err := "", Va1 := "arg",
    Va2 := "seed", conn := some 0 }

/-- A concrete local handler that records its execution in Va2. -/
def exA : Msg → Msg := fun m => { m with Va2 := "A-ran" }

/-- A second concrete local handler, distinguishable from `exA`. -/
def exB : Msg → Msg := fun m => { m with Va2 := "B-ran" }

/-- The duplicate-tag error reply that send_err produces for `reqEx5`
inside setBusy (and on which the handler is then invoked). -/
def dupEx5 : Msg :=
  { Dst := "caller", Src := "Echo", Tag := 9, Err := errString .errBadTag,
    Va1 := "", Va2 := "", conn := some 1 }

/-- Concrete C6 counterexample input: seven 0x1F-separated parts with a
hexadecimal tag field. -/
def cex6 : List Char := "a\x1Fb\x1Fc\x1F0x5\x1Fd\x1Fe\x1Ff".toList

/-- Concrete message for the C7 roundtrip witness: delimiter-free fields
and a negative tag. -/
def mEx7 : Msg :=
  { Dst := "Echo", Src := "1.cli", Tag := -12, Err := "", Va1 := "QQ==",
    Va2 := "Ig==", conn := some 4 }

/-! ## Lemmas: tag allocation -/

theorem probeStep_iterate (t0 : ℤ) (h0 : 0 ≤ t0) (h1 : t0 < 2 ^ 31) :
    ∀ k : ℕ, probeStep^[k] t0 = (t0 + k) % 2 ^ 31 := by
  intro k
  induction k with
  | zero => simpa using (Int.emod_eq_of_lt h0 h1).symm
  | succ k ih =>
      rw [Function.iterate_succ_apply', ih]
      have hx0 : 0 ≤ (t0 + (k : ℤ)) % 2 ^ 31 := Int.emod_nonneg _ (by norm_num)
      have hx1 : (t0 + (k : ℤ)) % 2 ^ 31 < 2 ^ 31 :=
        Int.emod_lt_of_pos _ (by norm_num)
      unfold probeStep
      push_cast
      split <;> omega

theorem getBucketLoop_some_of_free (M : Finset ℤ) :
    ∀ fuel t, (∃ k, k < fuel ∧ probeStep^[k] t ∉ M) →
      ∃ u, getBucketLoop M fuel t = some u ∧ u ∉ M := by
  intro fuel
  induction fuel with
  | zero => intro t h; obtain ⟨k, hk, _⟩ := h; omega
  | succ n ih =>
      intro t h
      obtain ⟨k, hk, hfree⟩ := h
      by_cases hmem : t ∈ M
      · have hk0 : k ≠ 0 := by
          rintro rfl
          simp only [Function.iterate_zero, id_eq] at hfree
          exact hfree hmem
        obtain ⟨j, rfl⟩ : ∃ j, k = j + 1 := ⟨k - 1, by omega⟩
        have hj : probeStep^[j] (probeStep t) ∉ M := by
          rwa [← Function.iterate_succ_apply]
        have := ih (probeStep t) ⟨j, by omega, hj⟩
        simpa [getBucketLoop, hmem] using this
      · exact ⟨t, by simp [getBucketLoop, hmem], hmem⟩

theorem getBucketLoop_range (M : Finset ℤ) :
    ∀ fuel t u, 0 ≤ t → t < 2 ^ 31 → getBucketLoop M fuel t = some u →
      0 ≤ u ∧ u < 2 ^ 31 := by
  intro fuel
  induction fuel with
  | zero => intro t u _ _ h; simp [getBucketLoop] at h
  | succ n ih =>
      intro t u h0 h1 h
      by_cases hmem : t ∈ M
      · simp only [getBucketLoop, hmem, if_true] at h
        have hp0 : 0 ≤ probeStep t := by unfold probeStep; split <;> omega
        have hp1 : probeStep t < 2 ^ 31 := by unfold probeStep; split <;> omega
        exact ih (probeStep t) u hp0 hp1 h
      · simp only [getBucketLoop, hmem, if_false] at h
        injection h with h
        omega

/-- Shared helper: the allocation loop terminates with a tag outside the
map whenever some 31-bit tag is free, starting from any in-range draw. -/
theorem getBucket_succeeds (M : Finset ℤ) (t0 : ℤ)
    (h0 : 0 ≤ t0) (h1 : t0 < 2 ^ 31)
    (hfree : ∃ f, 0 ≤ f ∧ f < 2 ^ 31 ∧ f ∉ M) :
    ∃ u, getBucket M t0 = some u ∧ u ∉ M ∧ 0 ≤ u ∧ u < 2 ^ 31 := by
  obtain ⟨f, hf0, hf1, hfM⟩ := hfree
  set k : ℕ := ((f - t0) % 2 ^ 31).toNat with hk
  have hknn : 0 ≤ (f - t0) % 2 ^ 31 := Int.emod_nonneg _ (by norm_num)
  have hklt : (f - t0) % 2 ^ 31 < 2 ^ 31 := Int.emod_lt_of_pos _ (by norm_num)
  have hkz : (k : ℤ) = (f - t0) % 2 ^ 31 := Int.toNat_of_nonneg hknn
  have hkn : k < 2 ^ 31 := by
    have : ((2 : ℤ) ^ 31) = ((2 ^ 31 : ℕ) : ℤ) := by norm_num
    omega
  have hit : probeStep^[k] t0 = f := by
    rw [probeStep_iterate t0 h0 h1 k]
    omega
  obtain ⟨u, hu, huM⟩ :=
    getBucketLoop_some_of_free M (2 ^ 31) t0 ⟨k, hkn, by rw [hit]; exact hfM⟩
  refine ⟨u, hu, huM, ?_⟩
  exact getBucketLoop_range M (2 ^ 31) t0 u h0 h1 hu

/-- Claim C1: the tag allocator terminates and returns a fresh 31-bit tag,
amended: the returned tag lies in `[0, 2^31-1]` and may be any of the
reserved values 0, 1, 2; the collision probe moves linearly upward and on
exhaustion of the range wraps through 0 (after which the next probe is 1),
not through 1 as claimed. -/
theorem getBucket_fresh_tag (M : Finset ℤ) (t0 : ℤ)
    (h0 : 0 ≤ t0) (h1 : t0 < 2 ^ 31)
    (hfree : ∃ f, 0 ≤ f ∧ f < 2 ^ 31 ∧ f ∉ M) :
    (∃ u, getBucket M t0 = some u ∧ u ∉ M ∧ 0 ≤ u ∧ u < 2 ^ 31) ∧
      probeStep (2 ^ 31 - 1) = 0 ∧ probeStep 0 = 1 := by
  refine ⟨getBucket_succeeds M t0 h0 h1 hfree, by decide, by decide⟩

/-- Witness for C1 at a concrete input: the empty tag map with initial
draw 5. -/
theorem getBucket_fresh_tag_witness :
    (0 : ℤ) ≤ 5 ∧ (5 : ℤ) < 2 ^ 31 ∧
      ((∃ u, getBucket ∅ 5 = some u ∧ u ∉ (∅ : Finset ℤ) ∧ 0 ≤ u ∧ u < 2 ^ 31) ∧
        probeStep (2 ^ 31 - 1) = 0 ∧ probeStep 0 = 1) :=
  ⟨by norm_num, by norm_num,
    getBucket_fresh_tag ∅ 5 (by norm_num) (by norm_num)
      ⟨3, by norm_num, by norm_num, by decide⟩⟩

/-- Counterexample for C1 as stated: with an empty tag map and the random
draw 0 the allocator returns the reserved announcement tag 0 (not a
positive tag), and on exhaustion of the range the probe wraps to 0, not 1:
starting from the taken maximal tag 2^31-1 the allocator returns 0. -/
theorem getBucket_reserved_tag_cex :
    getBucket ∅ 0 = some 0 ∧
      getBucket {2147483647} 2147483647 = some 0 := by decide
/-! ## Claim C2: the request message built by Call -/

theorem myAddrStr_ne_empty (n : ℤ) (prog : String) : myAddrStr n prog ≠ "" := by
  intro h
  have h2 := congrArg String.length h
  simp only [myAddrStr, String.length_append] at h2
  have e1 : ".".length = 1 := rfl
  have e2 : ("" : String).length = 0 := rfl
  omega

/-- Claim C2: the message Call passes to the send step carries
Dst = name, Tag = the allocated tag, Va1/Va2 = the encoded argument and
reply-seed bytes; amended: its Src field is left empty (the zero value),
not the node address myAddr — Call bypasses `route`, the only place that
fills an empty Src. -/
theorem call_request_fields (name va1 va2 : String) (tag n : ℤ) (prog : String) :
    (callRequestMsg name va1 va2 tag).Dst = name ∧
      (callRequestMsg name va1 va2 tag).Src = "" ∧
      (callRequestMsg name va1 va2 tag).Tag = tag ∧
      (callRequestMsg name va1 va2 tag).Va1 = va1 ∧
      (callRequestMsg name va1 va2 tag).Va2 = va2 ∧
      (callRequestMsg name va1 va2 tag).Src ≠ myAddrStr n prog := by
  refine ⟨rfl, rfl, rfl, rfl, rfl, ?_⟩
  intro h
  exact myAddrStr_ne_empty n prog h.symm

/-- Counterexample for C2 as stated: the message sent for
Call("Echo", ...) has an empty Src, which is never the node address
myAddr (here shown for the address "123.prog"). -/
theorem call_request_src_cex :
    (callRequestMsg "Echo" "QQ==" "SWdub3JlZA==" 5).Src = "" ∧
      myAddrStr 123 "prog" = "123.prog" ∧ ("" : String) ≠ "123.prog" := by
  refine ⟨rfl, ?_, by decide⟩
  rfl

/-! ## Claim C10: send_err transmits only when a route exists -/

/-- Claim C10: the synthesized error reply (Dst/Src swapped, payloads
blanked, Err set) is transmitted only when the route table has an entry for
the reply's destination (the original sender); with no route the conn field
is pointed at the uplink when one exists, but no send occurs. -/
theorem send_err_route_gated (s : SB) (req : Msg) (e : GoErr) :
    ((sendErrFn s req e).1.Dst = req.Src ∧
      (sendErrFn s req e).1.Src = req.Dst ∧
      (sendErrFn s req e).1.Va1 = "" ∧
      (sendErrFn s req e).1.Va2 = "" ∧
      (sendErrFn s req e).1.Err = errString e) ∧
    (∀ c, findRoute s req.Src = some c →
      (sendErrFn s req e).2 =
        [Action.send c (sendErrFn s req e).1,
         Action.logDrop (sendErrFn s req e).1]) ∧
    (findRoute s req.Src = none →
      (sendErrFn s req e).2 = [Action.logDrop (sendErrFn s req e).1] ∧
        (∀ c m, Action.send c m ∉ (sendErrFn s req e).2) ∧
        (∀ u, s.uplink = some u → (sendErrFn s req e).1.conn = some u)) := by
  unfold sendErrFn
  cases h : findRoute s req.Src with
  | none =>
      simp only [h]
      refine ⟨⟨by trivial, by trivial, by trivial, by trivial, by trivial⟩, ?_, ?_⟩
      · intro c hc; exact Option.noConfusion hc
      · intro _
        refine ⟨by trivial, ?_, ?_⟩
        · intro c m hm
          simp only [List.mem_singleton] at hm
          exact Action.noConfusion hm
        · intro u hu
          simp only [hu]
  | some c0 =>
      simp only [h]
      refine ⟨⟨by trivial, by trivial, by trivial, by trivial, by trivial⟩, ?_, ?_⟩
      · intro c hc
        injection hc with hc
        subst hc
        rfl
      · intro hn; exact Option.noConfusion hn

/-- Witness for C10: with a route for the original sender the reply is
sent on it; without one (but with an uplink) the conn field is set to the
uplink and nothing is sent. -/
theorem send_err_route_gated_witness :
    ((sendErrFn sEx10 reqEx10 .errClosed).2 =
      [Action.send 7 (sendErrFn sEx10 reqEx10 .errClosed).1,
       Action.logDrop (sendErrFn sEx10 reqEx10 .errClosed).1]) ∧
    ((sendErrFn sEx10b reqEx10 .errClosed).2 =
      [Action.logDrop (sendErrFn sEx10b reqEx10 .errClosed).1] ∧
      (∀ c m, Action.send c m ∉ (sendErrFn sEx10b reqEx10 .errClosed).2) ∧
      (∀ u, sEx10b.uplink = some u →
        (sendErrFn sEx10b reqEx10 .errClosed).1.conn = some u)) :=
  ⟨(send_err_route_gated sEx10 reqEx10 .errClosed).2.1 7 (by decide),
   (send_err_route_gated sEx10b reqEx10 .errClosed).2.2 (by decide)⟩

/-! ## Claim C3: the switchboard's unknown-destination branch -/

/-- Claim C3: when the switchboard can route a message nowhere (no pending
tag entry, no route for the destination, no local handler, no uplink) and
Err is empty, it synthesizes a reply with Dst and Src swapped, Err set to
the distinguished failure string, a negative tag flipped positive, and
re-enters it into the routing path; if Err was already non-empty the
message is logged and dropped.  Amended: the payload fields Va1 and Va2 are
NOT blanked in this branch — the synthesized reply keeps the original
payloads (blanking happens only in send_err). -/
theorem switchboard_unroutable (s : SB) (req : Msg)
    (htag : req.Tag ≠ 0)
    (hpend : s.tagMap req.Tag = none)
    (hroute : findRoute s req.Dst = none)
    (hup : s.uplink = none) :
    (req.Err = "" →
      switchboard s req = (s, (routeFn s (synthFailReply req)).2.1) ∧
      (synthFailReply req).Dst = req.Src ∧
      (synthFailReply req).Src = req.Dst ∧
      (synthFailReply req).Err = errString .errFail ∧
      (synthFailReply req).Tag = (if req.Tag < 0 then -req.Tag else req.Tag) ∧
      (synthFailReply req).Va1 = req.Va1 ∧
      (synthFailReply req).Va2 = req.Va2) ∧
    (req.Err ≠ "" → switchboard s req = (s, [Action.logDrop req])) := by
  unfold switchboard
  rw [if_neg htag]
  rw [if_neg (by simp [hpend])]
  rw [if_neg (by simp [hpend])]
  simp only [hroute]
  constructor
  · intro he
    rw [if_pos he]
    exact ⟨rfl, rfl, rfl, rfl, rfl, rfl, rfl⟩
  · intro he
    rw [if_neg he]

/-- Witness for C3: the synthesized failure reply for the concrete
unroutable request is routed to the original sender with both payload
fields intact. -/
theorem switchboard_unroutable_witness :
    reqEx3.Err = "" ∧
      (switchboard sEx3 reqEx3).2 = [Action.send 2 synthEx3] ∧
      synthEx3.Va1 = reqEx3.Va1 ∧ synthEx3.Va2 = reqEx3.Va2 :=
  ⟨rfl,
   by
    have h := (switchboard_unroutable sEx3 reqEx3 (by decide) (by decide)
      (by decide) (by decide)).1 rfl
    rw [congrArg Prod.snd h.1]
    decide,
   rfl, rfl⟩

/-- Counterexample for C3 as stated: the transmitted synthesized reply
carries Va1 = "payload" and Va2 = "seed", i.e. the payload fields are not
blanked. -/
theorem switchboard_unroutable_cex :
    (switchboard sEx3 reqEx3).2 = [Action.send 2 synthEx3] ∧
      synthEx3.Va1 = "payload" ∧ synthEx3.Va2 = "seed" ∧
      synthEx3.Err = "Request failed, service unavailable." := by decide

/-! ## Claim C5: duplicate tag at a producer -/

/-- Claim C5: when a request for a locally registered handler arrives with
a tag whose busy marker is already set, the node emits a duplicate-tag
error reply toward the origin (via send_err, hence only actually
transmitted when a route for the reply destination exists).  Amended: the
handler is still invoked — on the message as mutated by send_err (Dst/Src
swapped, payloads blanked, Err set, conn repointed) — and its result is
sent to the connection now recorded in the message, so the handler does
not run at most once per busy tag. -/
theorem setBusy_duplicate_still_executes (s : SB) (ex : Msg → Msg)
    (req : Msg) (c2 : ℕ)
    (hbusy : (s.tagMap (-req.Tag)).isSome = true)
    (hc2 : findRoute s req.Src = some c2) :
    (sendErrFn s req .errBadTag).1.Err = errString .errBadTag ∧
      (sendErrFn s req .errBadTag).1.Dst = req.Src ∧
      (sendErrFn s req .errBadTag).1.conn = some c2 ∧
      (execTask s ex req).2 =
        [Action.send c2 (sendErrFn s req .errBadTag).1,
         Action.logDrop (sendErrFn s req .errBadTag).1,
         Action.send c2 (ex (sendErrFn s req .errBadTag).1)] := by
  unfold execTask setBusyFn
  rw [if_pos hbusy]
  simp only [sendErrFn, hc2]
  exact ⟨trivial, trivial, trivial, rfl⟩

/-- Witness for C5: the concrete busy state and duplicate request, with
handler `exA`. -/
theorem setBusy_duplicate_still_executes_witness :
    (sEx5.tagMap (-reqEx5.Tag)).isSome = true ∧
      findRoute sEx5 reqEx5.Src = some 1 ∧
      (execTask sEx5 exA reqEx5).2 =
        [Action.send 1 dupEx5, Action.logDrop dupEx5,
         Action.send 1 (exA dupEx5)] :=
  ⟨by decide, by decide,
   by
    have h := setBusy_duplicate_still_executes sEx5 exA reqEx5 1
      (by decide) (by decide)
    rw [h.2.2.2]
    decide⟩

/-- Counterexample for C5 as stated: under a busy tag the handler still
runs — the emitted actions depend on which handler is installed, and the
handler's distinctive output is transmitted right after the duplicate-tag
error reply. -/
theorem setBusy_duplicate_cex :
    (execTask sEx5 exA reqEx5).2 ≠ (execTask sEx5 exB reqEx5).2 ∧
      Action.send 1 (exA dupEx5) ∈ (execTask sEx5 exA reqEx5).2 ∧
      (exA dupEx5).Va2 = "A-ran" ∧
      Action.send 1 dupEx5 ∈ (execTask sEx5 exA reqEx5).2 ∧
      dupEx5.Err = "Duplicate tag detected." := by decide

/-! ## Claim C4: Call's reply dispatch -/

/-- Claim C4: a delivered reply is dispatched on its Err field — empty
means success with the Va2 payload, the duplicate-tag string removes the
pending entry and re-sends under a freshly allocated tag, the generic
failure string yields the ErrFail sentinel, and any other non-empty string
is surfaced verbatim; every branch removes the pending entry. -/
theorem call_reply_dispatch (m : Finset ℤ) (tag : ℤ) (data : Msg)
    (name va1 va2 : String) (t0 : ℤ) :
    (data.Err = "" →
      callOnReply m tag data = (m.erase tag, .success data.Va2)) ∧
    (data.Err = errString .errBadTag →
      callOnReply m tag data = (m.erase tag, .retry) ∧
      (0 ≤ t0 → t0 < 2 ^ 31 →
        (∃ f, 0 ≤ f ∧ f < 2 ^ 31 ∧ f ∉ m.erase tag) →
        ∃ t', getBucket (m.erase tag) t0 = some t' ∧ t' ∉ m.erase tag ∧
          callRetry (m.erase tag) t0 name va1 va2 =
            some (callRequestMsg name va1 va2 t', t'))) ∧
    (data.Err = errString .errFail →
      callOnReply m tag data = (m.erase tag, .failure)) ∧
    (data.Err ≠ "" → data.Err ≠ errString .errBadTag →
      data.Err ≠ errString .errFail →
      callOnReply m tag data = (m.erase tag, .other data.Err)) := by
  refine ⟨?_, ?_, ?_, ?_⟩
  · intro he
    unfold callOnReply
    rw [if_neg (by rw [he]; decide), if_neg (by rw [he]; decide),
        if_neg (by rw [he]; simp)]
  · intro he
    refine ⟨by unfold callOnReply; rw [if_pos he], ?_⟩
    intro h0 h1 hfree
    obtain ⟨t', ht', htM, _, _⟩ := getBucket_succeeds (m.erase tag) t0 h0 h1 hfree
    refine ⟨t', ht', htM, ?_⟩
    unfold callRetry
    rw [ht']
  · intro he
    unfold callOnReply
    rw [if_neg (by rw [he]; decide), if_pos he]
  · intro he1 he2 he3
    unfold callOnReply
    rw [if_neg he2, if_neg he3, if_pos he1]

/-- Witness for C4: the four dispatch branches at concrete replies, and a
concrete fresh-tag retry. -/
theorem call_reply_dispatch_witness :
    (callOnReply {5} 5 { Dst := "me", Src := "Echo", Tag := 5, Err := "",
                         Va1 := "", Va2 := "RQ==", conn := none } =
      (∅, .success "RQ==")) ∧
    (callOnReply {5} 5 { Dst := "me", Src := "Echo", Tag := 5,
                         Err := "Duplicate tag detected.", Va1 := "",
                         Va2 := "", conn := none } = (∅, .retry)) ∧
    (∃ t', getBucket (({5} : Finset ℤ).erase 5) 3 = some t' ∧
      t' ∉ ({5} : Finset ℤ).erase 5 ∧
      callRetry (({5} : Finset ℤ).erase 5) 3 "Echo" "QQ==" "SQ==" =
        some (callRequestMsg "Echo" "QQ==" "SQ==" t', t')) ∧
    (callOnReply {5} 5 { Dst := "me", Src := "Echo", Tag := 5,
                         Err := "Request failed, service unavailable.",
                         Va1 := "", Va2 := "", conn := none } =
      (∅, .failure)) ∧
    (callOnReply {5} 5 { Dst := "me", Src := "Echo", Tag := 5,
                         Err := "Key not found.", Va1 := "", Va2 := "",
                         conn := none } = (∅, .other "Key not found.")) := by
  refine ⟨?_, ?_, ?_, ?_, ?_⟩
  · have h := (call_reply_dispatch {5} 5
      { Dst := "me", Src := "Echo", Tag := 5, Err := "", Va1 := "",
        Va2 := "RQ==", conn := none } "Echo" "QQ==" "SQ==" 3).1 rfl
    rw [h]
    decide
  · have h := ((call_reply_dispatch {5} 5
      { Dst := "me", Src := "Echo", Tag := 5,
        Err := "Duplicate tag detected.", Va1 := "", Va2 := "",
        conn := none } "Echo" "QQ==" "SQ==" 3).2.1 rfl).1
    rw [h]
    decide
  · exact ((call_reply_dispatch {5} 5
      { Dst := "me", Src := "Echo", Tag := 5,
        Err := "Duplicate tag detected.", Va1 := "", Va2 := "",
        conn := none } "Echo" "QQ==" "SQ==" 3).2.1 rfl).2
      (by norm_num) (by norm_num) ⟨3, by norm_num, by norm_num, by decide⟩
  · have h := (call_reply_dispatch {5} 5
      { Dst := "me", Src := "Echo", Tag := 5,
        Err := "Request failed, service unavailable.", Va1 := "", Va2 := "",
        conn := none } "Echo" "QQ==" "SQ==" 3).2.2.1 rfl
    rw [h]
    decide
  · have h := (call_reply_dispatch {5} 5
      { Dst := "me", Src := "Echo", Tag := 5, Err := "Key not found.",
        Va1 := "", Va2 := "", conn := none } "Echo" "QQ==" "SQ==" 3).2.2.2
      (by decide) (by decide) (by decide)
    rw [h]
    decide

/-! ## Claim C8: route table vs connection routes lists -/

/-- The one-sided consistency invariant that actually holds: every route
table entry is recorded in its connection's routes list. -/
def routeInv (s : SB) : Prop :=
  ∀ n c, s.connMap n = some c → n ∈ s.routesOf c

theorem routeInv_applyROp (s : SB) (op : ROp) (h : routeInv s) :
    routeInv (applyROp s op) := by
  cases op with
  | add addr c0 =>
      intro n c hn
      simp only [applyROp, sbAddRoute] at hn ⊢
      by_cases hna : n = addr
      · subst hna
        rw [if_pos rfl] at hn
        injection hn with hn
        subst hn
        rw [if_pos rfl]
        exact List.mem_append_right _ (List.mem_singleton.mpr rfl)
      · rw [if_neg hna] at hn
        have := h n c hn
        by_cases hc : c = c0
        · subst hc
          rw [if_pos rfl]
          exact List.mem_append_left _ this
        · rw [if_neg hc]
          exact this
  | close c0 =>
      intro n c hn
      simp only [applyROp, connClose] at hn ⊢
      by_cases hm : n ∈ s.routesOf c0
      · rw [if_pos hm] at hn
        exact Option.noConfusion hn
      · rw [if_neg hm] at hn
        exact h n c hn

theorem routeInv_applyROps (ops : List ROp) :
    ∀ s : SB, routeInv s → routeInv (applyROps s ops) := by
  induction ops with
  | nil => intro s h; exact h
  | cons op rest ih =>
      intro s h
      exact ih (applyROp s op) (routeInv_applyROp s op h)

/-- Claim C8: after any sequence of add_route and close operations, the
route table and the per-connection routes lists are mutually consistent.
Amended: only one direction holds — a route table entry n ↦ c implies n is
in c.routes; the converse fails because an overwriting add_route for an
existing name leaves the name in the previous connection's routes list. -/
theorem route_table_consistency (ops : List ROp) :
    ∀ n c, (applyROps initSB ops).connMap n = some c →
      n ∈ (applyROps initSB ops).routesOf c := by
  apply routeInv_applyROps
  intro n c hn
  exact Option.noConfusion hn

/-- Witness for C8: a single announcement of "x" over connection 3. -/
theorem route_table_consistency_witness :
    (applyROps initSB [ROp.add "x" 3]).connMap "x" = some 3 ∧
      "x" ∈ (applyROps initSB [ROp.add "x" 3]).routesOf 3 :=
  ⟨by decide, route_table_consistency [ROp.add "x" 3] "x" 3 (by decide)⟩

/-- Counterexample for C8 as stated: after announcing "x" over connection
0 and then over connection 1 (last-writer-wins), "x" is still in
connection 0's routes list although the route table maps it to
connection 1 — the biconditional fails. -/
theorem route_table_consistency_cex :
    "x" ∈ (applyROps initSB [ROp.add "x" 0, ROp.add "x" 1]).routesOf 0 ∧
      (applyROps initSB [ROp.add "x" 0, ROp.add "x" 1]).connMap "x" =
        some 1 ∧
      ¬((applyROps initSB [ROp.add "x" 0, ROp.add "x" 1]).connMap "x" =
        some 0) := by decide

/-! ## Claim C9: Listen's broker fall-through and cleanup -/

/-- Claim C9: Listen falls through to becoming the broker exactly when the
initial dial fails with an error containing "connection refused" or "no
such file or directory", and in that case removes from the directory
exactly those files whose names contain the basename of the socket path,
leaving every other file untouched. -/
theorem listen_broker_fallthrough (dialErr : Option String)
    (socketf : String) (dirFiles : List String) :
    (listenReturnsEarly dialErr = false ↔
      ∃ e, dialErr = some e ∧
        (goContains e "connection refused" = true ∨
          goContains e "no such file or directory" = true)) ∧
    (∀ f, f ∈ listenRemoved socketf dirFiles ↔
      f ∈ dirFiles ∧ goContains f (sfileName socketf) = true) ∧
    (∀ f, f ∈ listenKept socketf dirFiles ↔
      f ∈ dirFiles ∧ goContains f (sfileName socketf) = false) := by
  refine ⟨?_, ?_, ?_⟩
  · cases dialErr with
    | none =>
        simp only [listenReturnsEarly]
        constructor
        · intro h; exact absurd h (by decide)
        · rintro ⟨e, he, _⟩; exact Option.noConfusion he
    | some e =>
        simp only [listenReturnsEarly]
        constructor
        · intro h
          refine ⟨e, rfl, ?_⟩
          by_cases hc : goContains e "connection refused" = true
          · exact Or.inl hc
          · by_cases hd : goContains e "no such file or directory" = true
            · exact Or.inr hd
            · rw [Bool.not_eq_true] at hc hd
              rw [hc, hd] at h
              exact absurd h (by decide)
        · rintro ⟨e2, he2, h⟩
          injection he2 with he2
          subst he2
          rcases h with h | h
          · rw [h]; rfl
          · rw [h]
            cases goContains e "connection refused" <;> rfl
  · intro f
    simp [listenRemoved, List.mem_filter]
  · intro f
    simp [listenKept, List.mem_filter]

/-- Witness for C9 at concrete inputs: a refused dial falls through; with
socket path "/tmp/ipc.sock" the files containing "ipc.sock" are removed
and the others kept. -/
theorem listen_broker_fallthrough_witness :
    (listenReturnsEarly (some "dial unix /tmp/ipc.sock: connect: connection refused") = false ↔
      ∃ e, (some "dial unix /tmp/ipc.sock: connect: connection refused" : Option String) = some e ∧
        (goContains e "connection refused" = true ∨
          goContains e "no such file or directory" = true)) ∧
    ("ipc.sock.123" ∈ listenRemoved "/tmp/ipc.sock" ["ipc.sock.123", "other.txt"] ↔
      "ipc.sock.123" ∈ ["ipc.sock.123", "other.txt"] ∧
        goContains "ipc.sock.123" (sfileName "/tmp/ipc.sock") = true) ∧
    ("other.txt" ∈ listenKept "/tmp/ipc.sock" ["ipc.sock.123", "other.txt"] ↔
      "other.txt" ∈ ["ipc.sock.123", "other.txt"] ∧
        goContains "other.txt" (sfileName "/tmp/ipc.sock") = false) :=
  ⟨(listen_broker_fallthrough
      (some "dial unix /tmp/ipc.sock: connect: connection refused")
      "/tmp/ipc.sock" ["ipc.sock.123", "other.txt"]).1,
   (listen_broker_fallthrough
      (some "dial unix /tmp/ipc.sock: connect: connection refused")
      "/tmp/ipc.sock" ["ipc.sock.123", "other.txt"]).2.1 "ipc.sock.123",
   (listen_broker_fallthrough
      (some "dial unix /tmp/ipc.sock: connect: connection refused")
      "/tmp/ipc.sock" ["ipc.sock.123", "other.txt"]).2.2 "other.txt"⟩

/-! ## Claim C6: decMessage -/

/-- Claim C6: frame decoding splits the input on 0x1F; fewer than six
parts (or an unparsable tag) fail with a descriptive error, and the first
six parts are assigned in wire order Dst, Src, Err, Tag, Va1, Va2.
Amended: decoding succeeds whenever there are AT LEAST six parts (extra
parts are silently ignored, not rejected), and the tag is parsed by
ParseInt with base 0, which admits hexadecimal, octal and binary renderings
besides decimal. -/
theorem decMessage_spec (input : List Char) :
    ((decMessage input).2 = none ↔
      6 ≤ (splitOn usChar input).length ∧
        (parseIntBase0 ((splitOn usChar input).getD 3 [])).isSome = true) ∧
    ((splitOn usChar input).length < 6 →
      decMessage input =
        (none, some ("Incomplete or corrupted message: " ++ input.asString))) ∧
    (∀ t, parseIntBase0 ((splitOn usChar input).getD 3 []) = some t →
      6 ≤ (splitOn usChar input).length →
      decMessage input =
        (some { Dst := ((splitOn usChar input).getD 0 []).asString,
                Src := ((splitOn usChar input).getD 1 []).asString,
                Err := ((splitOn usChar input).getD 2 []).asString,
                Tag := t,
                Va1 := ((splitOn usChar input).getD 4 []).asString,
                Va2 := ((splitOn usChar input).getD 5 []).asString,
                conn := none }, none)) := by
  unfold decMessage
  by_cases hlen : (splitOn usChar input).length < 6
  · rw [if_pos hlen]
    refine ⟨?_, fun _ => rfl, ?_⟩
    · constructor
      · intro h; exact Option.noConfusion h
      · rintro ⟨h6, _⟩; omega
    · intro t _ h6; omega
  · rw [if_neg hlen]
    cases hp : parseIntBase0 ((splitOn usChar input).getD 3 []) with
    | none =>
        refine ⟨?_, fun h => absurd h hlen, ?_⟩
        · constructor
          · intro h; exact Option.noConfusion h
          · rintro ⟨_, hs⟩
            exact Bool.noConfusion hs
        · intro t ht _
          exact Option.noConfusion ht
    | some t0 =>
        refine ⟨?_, fun h => absurd h hlen, ?_⟩
        · constructor
          · intro _; exact ⟨by omega, rfl⟩
          · intro _; rfl
        · intro t ht _
          injection ht with ht
          subst ht
          rfl

/-- Witness for C6: a well-formed six-part frame body decodes to the six
fields in wire order. -/
theorem decMessage_spec_witness :
    parseIntBase0 ((splitOn usChar "a\x1Fb\x1Fc\x1F-42\x1Fd\x1Fe".toList).getD 3 []) =
      some (-42) ∧
    6 ≤ (splitOn usChar "a\x1Fb\x1Fc\x1F-42\x1Fd\x1Fe".toList).length ∧
    decMessage "a\x1Fb\x1Fc\x1F-42\x1Fd\x1Fe".toList =
      (some { Dst := "a", Src := "b", Err := "c", Tag := -42, Va1 := "d",
              Va2 := "e", conn := none }, none) :=
  ⟨by decide, by decide,
   by
    have h := (decMessage_spec "a\x1Fb\x1Fc\x1F-42\x1Fd\x1Fe".toList).2.2
      (-42) (by decide) (by decide)
    rw [h]
    decide⟩

/-- Counterexample for C6 as stated: an input with seven 0x1F-separated
parts and a hexadecimal (non-decimal) tag field "0x5" decodes successfully,
refuting both "exactly six parts" and "decimal". -/
theorem decMessage_extra_parts_cex :
    (splitOn usChar cex6).length = 7 ∧
      (decMessage cex6).2 = none ∧
      (decMessage cex6).1 =
        some { Dst := "a", Src := "b", Err := "c", Tag := 5, Va1 := "d",
               Va2 := "e", conn := none } := by decide

/-! ## Lemmas: decimal rendering and parsing -/

theorem digit_char_facts (d : ℕ) (hd : d < 10) :
    digitVal (Char.ofNat (48 + d)) = some d ∧
      (Char.ofNat (48 + d)).toNat = 48 + d ∧
      Char.ofNat (48 + d) ≠ '_' ∧
      Char.ofNat (48 + d) ≠ '+' ∧
      Char.ofNat (48 + d) ≠ '-' ∧
      (1 ≤ d → Char.ofNat (48 + d) ≠ '0') ∧
      Char.ofNat (48 + d) ≠ usChar ∧
      Char.ofNat (48 + d) ≠ eotChar := by
  interval_cases d <;>
    refine ⟨by decide, by decide, by decide, by decide, by decide, ?_,
      by decide, by decide⟩ <;>
    first
      | exact fun h => absurd h (by decide)
      | exact fun h => by decide

theorem natToDecAux_digits :
    ∀ fuel n, n < fuel →
      ∀ c ∈ natToDecAux fuel n, ∃ d, d < 10 ∧ c = Char.ofNat (48 + d) := by
  intro fuel
  induction fuel with
  | zero => intro n h; omega
  | succ m ih =>
      intro n h c hc
      by_cases h10 : n < 10
      · simp only [natToDecAux, if_pos h10, List.mem_singleton] at hc
        exact ⟨n, h10, hc⟩
      · simp only [natToDecAux, if_neg h10, List.mem_append,
          List.mem_singleton] at hc
        rcases hc with hc | hc
        · exact ih (n / 10) (by omega) c hc
        · exact ⟨n % 10, Nat.mod_lt n (by omega), hc⟩

theorem natToDecAux_head :
    ∀ fuel n, n < fuel → 1 ≤ n →
      ∃ d cs, 1 ≤ d ∧ d < 10 ∧
        natToDecAux fuel n = Char.ofNat (48 + d) :: cs := by
  intro fuel
  induction fuel with
  | zero => intro n h; omega
  | succ m ih =>
      intro n h h1
      by_cases h10 : n < 10
      · exact ⟨n, [], h1, h10, by simp [natToDecAux, if_pos h10]⟩
      · obtain ⟨d, cs, hd1, hd10, hrec⟩ := ih (n / 10) (by omega) (by omega)
        refine ⟨d, cs ++ [Char.ofNat (48 + n % 10)], hd1, hd10, ?_⟩
        simp only [natToDecAux, if_neg h10, hrec, List.cons_append]

theorem goDigits_digit_list :
    ∀ xs, (∀ c ∈ xs, ∃ d, d < 10 ∧ c = Char.ofNat (48 + d)) →
      ∀ v, goDigits 10 true v false xs =
        some (xs.foldl (fun a c => a * 10 + (c.toNat - 48)) v, false) := by
  intro xs
  induction xs with
  | nil => intro _ v; rfl
  | cons c cs ih =>
      intro hdig v
      obtain ⟨d, hd, rfl⟩ := hdig c (List.mem_cons_self c cs)
      obtain ⟨hdv, htn, hus, _, _, _, _, _⟩ := digit_char_facts d hd
      simp only [goDigits]
      rw [if_neg (by exact fun hh => hus hh.1)]
      simp only [hdv]
      rw [if_neg (by omega)]
      rw [ih (fun c2 hc2 => hdig c2 (List.mem_cons_of_mem _ hc2))]
      simp only [List.foldl_cons, htn, Nat.add_sub_cancel_left]

theorem foldl_natToDecAux :
    ∀ fuel n, n < fuel → ∀ v,
      (natToDecAux fuel n).foldl (fun a c => a * 10 + (c.toNat - 48)) v =
        v * 10 ^ (natToDecAux fuel n).length + n := by
  intro fuel
  induction fuel with
  | zero => intro n h; omega
  | succ m ih =>
      intro n h v
      by_cases h10 : n < 10
      · simp only [natToDecAux, if_pos h10, List.foldl_cons, List.foldl_nil,
          List.length_singleton, pow_one]
        obtain ⟨_, htn, _⟩ := digit_char_facts n h10
        rw [htn]
        omega
      · simp only [natToDecAux, if_neg h10, List.foldl_append,
          List.foldl_cons, List.foldl_nil, List.length_append,
          List.length_singleton]
        rw [ih (n / 10) (by omega) v]
        obtain ⟨_, htn, _⟩ := digit_char_facts (n % 10) (Nat.mod_lt n (by omega))
        rw [htn]
        have hm : 10 * (n / 10) + n % 10 = n := Nat.div_add_mod n 10
        have hp : (10 : ℕ) ^ ((natToDecAux m (n / 10)).length + 1) =
            10 ^ (natToDecAux m (n / 10)).length * 10 := pow_succ 10 _
        rw [hp]
        ring_nf
        omega

theorem parseUint_natToDec (n : ℕ) (s0 : List Char) :
    parseUintBase0 (natToDec n) s0 = some n := by
  by_cases h1 : 1 ≤ n
  · obtain ⟨d, cs, hd1, hd10, hrec⟩ := natToDecAux_head (n + 1) n (by omega) h1
    have hdig := natToDecAux_digits (n + 1) n (by omega)
    obtain ⟨_, _, _, _, _, hz, _, _⟩ := digit_char_facts d hd10
    have hne0 : Char.ofNat (48 + d) ≠ '0' := hz hd1
    unfold parseUintBase0 natToDec
    rw [hrec]
    have hbase : goBaseSelect (Char.ofNat (48 + d) :: cs) =
        (10, Char.ofNat (48 + d) :: cs) := by
      cases cs with
      | nil => simp [goBaseSelect, hne0]
      | cons c2 cs2 => simp [goBaseSelect, hne0]
    simp only [hbase]
    have := goDigits_digit_list (natToDecAux (n + 1) n)
      (natToDecAux_digits (n + 1) n (by omega)) 0
    rw [hrec] at this
    rw [this]
    have := foldl_natToDecAux (n + 1) n (by omega) 0
    rw [hrec] at this
    rw [this]
    simp
  · have hn : n = 0 := by omega
    subst hn
    rfl

theorem parse_intToDec (t : ℤ) (h0 : -2 ^ 31 ≤ t) (h1 : t < 2 ^ 31) :
    parseIntBase0 (intToDec t) = some t := by
  by_cases hneg : t < 0
  · unfold intToDec
    rw [if_pos hneg]
    unfold parseIntBase0
    norm_num
    simp only [parseUint_natToDec]
    rw [if_neg (by omega)]
    congr 1
    omega
  · have hnn : (0 : ℤ) ≤ t := by omega
    have hdig := natToDecAux_digits (t.toNat + 1) t.toNat (by omega)
    unfold intToDec
    rw [if_neg hneg]
    unfold natToDec at hdig ⊢
    cases hsh : natToDecAux (t.toNat + 1) t.toNat with
    | nil =>
        exfalso
        by_cases h10 : t.toNat < 10 <;>
          simp [natToDecAux, h10] at hsh
    | cons c cs =>
        obtain ⟨d, hd, hcd⟩ := hdig c (by rw [hsh]; exact List.mem_cons_self c cs)
        subst hcd
        obtain ⟨_, _, _, hplus, hminus, _⟩ := digit_char_facts d hd
        have hpu := parseUint_natToDec t.toNat (Char.ofNat (48 + d) :: cs)
        unfold natToDec at hpu
        rw [hsh] at hpu
        unfold parseIntBase0
        simp only [hminus, hplus, or_self, if_false, false_or,
          eq_self_iff_true]
        simp only [hpu]
        rw [if_neg (by simp; omega)]
        rw [if_neg (by simp [hminus])]
        congr 1
        omega

/-! ## Lemmas: splitting and frame extraction -/

theorem splitOn_no_sep (sep : Char) :
    ∀ l : List Char, sep ∉ l → splitOn sep l = [l] := by
  intro l
  induction l with
  | nil => intro _; rfl
  | cons c rest ih =>
      intro h
      have hc : c ≠ sep := fun hh => h (hh ▸ List.mem_cons_self c rest)
      have hr : sep ∉ rest := fun hh => h (List.mem_cons_of_mem c hh)
      simp only [splitOn]
      rw [if_neg hc, ih hr]

theorem splitOn_append_sep (sep : Char) :
    ∀ xs ys : List Char, sep ∉ xs →
      splitOn sep (xs ++ sep :: ys) = xs :: splitOn sep ys := by
  intro xs
  induction xs with
  | nil =>
      intro ys _
      simp [splitOn]
  | cons c rest ih =>
      intro ys h
      have hc : c ≠ sep := fun hh => h (hh ▸ List.mem_cons_self c rest)
      have hr : sep ∉ rest := fun hh => h (List.mem_cons_of_mem c hh)
      simp only [List.cons_append, splitOn, List.append_eq]
      rw [if_neg hc, ih ys hr]

theorem findSplit_append :
    ∀ xs ys : List Char, eotChar ∉ xs →
      findSplit (xs ++ eotChar :: ys) = xs.length := by
  intro xs
  induction xs with
  | nil =>
      intro ys _
      simp [findSplit]
  | cons c rest ih =>
      intro ys h
      have hc : c ≠ eotChar := fun hh => h (hh ▸ List.mem_cons_self c rest)
      have hr : eotChar ∉ rest := fun hh => h (List.mem_cons_of_mem c hh)
      simp only [List.cons_append, findSplit, List.length_cons,
        List.append_eq]
      rw [if_neg hc, ih ys hr]

theorem intToDec_no_us (t : ℤ) : usChar ∉ intToDec t := by
  intro hc
  unfold intToDec at hc
  by_cases hneg : t < 0
  · rw [if_pos hneg] at hc
    rcases List.mem_cons.mp hc with h | h
    · exact absurd h.symm (by decide)
    · obtain ⟨d, hd, hcd⟩ :=
        natToDecAux_digits ((-t).toNat + 1) (-t).toNat (by omega) usChar h
      obtain ⟨_, _, _, _, _, _, hus, _⟩ := digit_char_facts d hd
      exact hus hcd.symm
  · rw [if_neg hneg] at hc
    obtain ⟨d, hd, hcd⟩ :=
      natToDecAux_digits (t.toNat + 1) t.toNat (by omega) usChar hc
    obtain ⟨_, _, _, _, _, _, hus, _⟩ := digit_char_facts d hd
    exact hus hcd.symm

theorem intToDec_no_eot (t : ℤ) : eotChar ∉ intToDec t := by
  intro hc
  unfold intToDec at hc
  by_cases hneg : t < 0
  · rw [if_pos hneg] at hc
    rcases List.mem_cons.mp hc with h | h
    · exact absurd h.symm (by decide)
    · obtain ⟨d, hd, hcd⟩ :=
        natToDecAux_digits ((-t).toNat + 1) (-t).toNat (by omega) eotChar h
      obtain ⟨_, _, _, _, _, _, _, heot⟩ := digit_char_facts d hd
      exact heot hcd.symm
  · rw [if_neg hneg] at hc
    obtain ⟨d, hd, hcd⟩ :=
      natToDecAux_digits (t.toNat + 1) t.toNat (by omega) eotChar hc
    obtain ⟨_, _, _, _, _, _, _, heot⟩ := digit_char_facts d hd
    exact heot hcd.symm

/-! ## Claim C7: encode-then-decode roundtrip -/

/-- Claim C7: for every message whose five string fields contain neither
the field separator 0x1F nor the frame terminator 0x04, the frame written
by connection.send — six 0x1F-separated fields followed by 0x04, Tag in
decimal — is decoded by the receiver pipeline (findSplit to slice off the
frame body, then decMessage) back to a message equal to the original on
all six wire fields. -/
theorem enc_dec_roundtrip (m : Msg)
    (hD1 : usChar ∉ m.Dst.toList) (hD2 : eotChar ∉ m.Dst.toList)
    (hS1 : usChar ∉ m.Src.toList) (hS2 : eotChar ∉ m.Src.toList)
    (hE1 : usChar ∉ m.Err.toList) (hE2 : eotChar ∉ m.Err.toList)
    (hV1a : usChar ∉ m.Va1.toList) (hV1b : eotChar ∉ m.Va1.toList)
    (hV2a : usChar ∉ m.Va2.toList) (hV2b : eotChar ∉ m.Va2.toList)
    (ht0 : -2 ^ 31 ≤ m.Tag) (ht1 : m.Tag < 2 ^ 31) :
    decMessage ((encMessage m).take (findSplit (encMessage m))) =
      (some { Dst := m.Dst, Src := m.Src, Tag := m.Tag, Err := m.Err,
              Va1 := m.Va1, Va2 := m.Va2, conn := none }, none) := by
  set B : List Char :=
    m.Dst.toList ++ usChar :: (m.Src.toList ++ usChar :: (m.Err.toList
      ++ usChar :: (intToDec m.Tag ++ usChar :: (m.Va1.toList
        ++ usChar :: m.Va2.toList)))) with hB
  have henc : encMessage m = B ++ eotChar :: [] := by
    simp only [encMessage, hB, List.append_assoc, List.singleton_append,
      List.cons_append, List.nil_append]
  have hBeot : eotChar ∉ B := by
    simp only [hB, List.mem_append, List.mem_cons]
    push_neg
    refine ⟨hD2, by decide, hS2, by decide, hE2, by decide,
      intToDec_no_eot m.Tag, by decide, hV1b, by decide, hV2b⟩
  have hfs : findSplit (encMessage m) = B.length := by
    rw [henc]
    exact findSplit_append B [] hBeot
  have htake : (encMessage m).take (findSplit (encMessage m)) = B := by
    rw [hfs, henc]
    exact List.take_left B [eotChar]
  have hsplit : splitOn usChar B =
      [m.Dst.toList, m.Src.toList, m.Err.toList, intToDec m.Tag,
       m.Va1.toList, m.Va2.toList] := by
    rw [hB]
    rw [splitOn_append_sep usChar _ _ hD1]
    rw [splitOn_append_sep usChar _ _ hS1]
    rw [splitOn_append_sep usChar _ _ hE1]
    rw [splitOn_append_sep usChar _ _ (intToDec_no_us m.Tag)]
    rw [splitOn_append_sep usChar _ _ hV1a]
    rw [splitOn_no_sep usChar _ hV2a]
  rw [htake]
  unfold decMessage
  rw [hsplit]
  rw [if_neg (by simp)]
  simp only [List.getD]
  rw [show (([m.Dst.toList, m.Src.toList, m.Err.toList, intToDec m.Tag,
      m.Va1.toList, m.Va2.toList].get? 3).getD []) = intToDec m.Tag from rfl]
  rw [parse_intToDec m.Tag ht0 ht1]
  rfl

/-- Witness for C7 at a concrete message with delimiter-free fields and a
negative tag. -/
theorem enc_dec_roundtrip_witness :
    usChar ∉ mEx7.Dst.toList ∧ (-2 ^ 31 : ℤ) ≤ mEx7.Tag ∧
      decMessage ((encMessage mEx7).take (findSplit (encMessage mEx7))) =
        (some { Dst := mEx7.Dst, Src := mEx7.Src, Tag := mEx7.Tag,
                Err := mEx7.Err, Va1 := mEx7.Va1, Va2 := mEx7.Va2,
                conn := none }, none) :=
  ⟨by decide, by decide,
   enc_dec_roundtrip mEx7
     (by decide) (by decide) (by decide) (by decide) (by decide) (by decide)
     (by decide) (by decide) (by decide) (by decide) (by decide)
     (by decide)⟩

/-- Sanity checks pinning the embedded strconv.ParseInt(s, 0, 32) to Go's
observable behavior: decimal, hex and legacy-octal prefixes, the signed
32-bit range limits, and the underscore placement rules. -/
theorem parseIntBase0_behavior :
    parseIntBase0 "5".toList = some 5 ∧
      parseIntBase0 "-17".toList = some (-17) ∧
      parseIntBase0 "0x5".toList = some 5 ∧
      parseIntBase0 "010".toList = some 8 ∧
      parseIntBase0 "2147483648".toList = none ∧
      parseIntBase0 "-2147483648".toList = some (-2147483648) ∧
      parseIntBase0 "1_0".toList = some 10 ∧
      parseIntBase0 "1__0".toList = none ∧
      parseIntBase0 "_1".toList = none ∧
      parseIntBase0 "".toList = none ∧
      parseIntBase0 "0".toList = some 0 ∧
      parseIntBase0 "0x".toList = none := by decide

end EzIPC
